import Mathlib

/-!
Shallow embedding of `src/git-fake.py` (class `GitCommitGenerator`).

Conventions of the embedding:
* Instants (`datetime`) are integers counting seconds; `timedelta(days=d, seconds=s)`
  subtracts `d*86400 + s` seconds.
* Python's `random.randint(lo, hi)` (inclusive bounds) is modelled by `randint`,
  which maps an arbitrary seed into the inclusive range `[lo, hi]`; every other
  random draw (`random.random() < p`, `random.choice`, faker text) is an oracle
  value supplied explicitly, since the claims quantify over all draws.
* The working tree is a map from relative file name to content
  (`String → Option String`); the tracked set `existing_files` is a duplicate-free
  list of names with Python-set `add`/`remove` semantics.
* Exceptions become `Except IOErr`; a `try/except` block becomes a `match`.
  Fallible external operations (file write, `os.remove`, `git add`, `git commit`)
  take an injected fault flag: `true` means the operation raises `IOError`
  (or the git command fails) at that point, `false` means it succeeds.
-/

namespace GitFake

/-- Python `random.randint(lo, hi)`: an arbitrary seed mapped into the inclusive
range `[lo, hi]` (for `lo ≤ hi`). -/
def randint (lo hi seed : Nat) : Nat := lo + seed % (hi + 1 - lo)

/-- Error values observable in the embedding: `ioError` for `IOError`/`OSError`
style failures (including failed git commands), `indexError` for Python
`IndexError`, `keyError` for Python `KeyError`. -/
inductive Err where
  | ioError
  | indexError
  | keyError
  deriving DecidableEq, Repr

/-- `os.path.join(a, b)` for a relative component `b`. -/
def pathJoin (a b : String) : String := a ++ "/" ++ b

/-- Python-set `add`: appends the element unless it is already present. -/
def setAdd (s : List String) (x : String) : List String :=
  if x ∈ s then s else s ++ [x]

/-- Python-set `remove` on a duplicate-free list. -/
def setRemove (s : List String) (x : String) : List String := s.erase x

/-- Write (create or overwrite) a file on the modelled disk. -/
def diskWrite (d : String → Option String) (n c : String) : String → Option String :=
  fun m => if m = n then some c else d m

/-- Remove a file from the modelled disk. -/
def diskErase (d : String → Option String) (n : String) : String → Option String :=
  fun m => if m = n then none else d m

/-- One recorded commit of the external VCS collaborator:
`(message, author name, optional commit date)`. -/
structure CommitRec where
  message : String
  authorName : String
  date : Option Int
  deriving DecidableEq, Repr

/-- The mutable state of a `GitCommitGenerator`: the repository path, the disk
contents of the working tree, the tracked set `existing_files`, and the commit
log of the external VCS engine. -/
structure GenState where
  repo_path : String
  disk : String → Option String
  existing_files : List String
  commits : List CommitRec

/-- `GitCommitGenerator._create_file`: writes `fake.text(...)` content to the
file, then adds the name to `existing_files` and returns the full path.  If the
write raises (`fault = true`), the exception is logged and re-raised with the
state unchanged. -/
def create_file (st : GenState) (file_name content : String) (fault : Bool) :
    GenState × Except Err String :=
  if fault then (st, .error .ioError)
  else
    ({ st with
        disk := diskWrite st.disk file_name content,
        existing_files := setAdd st.existing_files file_name },
      .ok (pathJoin st.repo_path file_name))

/-- `GitCommitGenerator._modify_file`: opens the file in append mode (`'a'`),
which creates it when it is missing, and writes `"\n" + fake.sentence()`.  If
the write raises (`fault = true`), the exception is logged and re-raised with
the state unchanged. -/
def modify_file (st : GenState) (file_name sentence : String) (fault : Bool) :
    GenState × Except Err String :=
  if fault then (st, .error .ioError)
  else
    let newContent := ((st.disk file_name).getD "") ++ "\n" ++ sentence
    ({ st with disk := diskWrite st.disk file_name newContent },
      .ok (pathJoin st.repo_path file_name))

/-- `GitCommitGenerator._delete_file`: `os.remove` (raises when the file is
missing on disk or on an injected fault), then `existing_files.remove`
(raises `KeyError` when the name is not tracked); exceptions are logged and
re-raised with the remaining statements skipped. -/
def delete_file (st : GenState) (file_name : String) (fault : Bool) :
    GenState × Except Err String :=
  if fault then (st, .error .ioError)
  else if st.disk file_name = none then (st, .error .ioError)
  else
    let st1 := { st with disk := diskErase st.disk file_name }
    if file_name ∈ st1.existing_files then
      ({ st1 with existing_files := setRemove st1.existing_files file_name },
        .ok (pathJoin st.repo_path file_name))
    else (st1, .error .keyError)

/-- The ephemeral mutation record chosen for one commit attempt. -/
inductive Mutation where
  | create (name : String)
  | modify (name : String)
  | delete (name : String)
  deriving DecidableEq, Repr

/-- The random draws and injected faults consumed by one call of
`generate_random_file_change`. -/
structure MutOracle where
  /-- outcome of `random.random() < 0.3` -/
  createRoll : Bool
  /-- index drawn by `random.choice(list(existing_files))` -/
  pickIdx : Nat
  /-- `random.choice(['modify', 'delete']) == 'modify'` -/
  modifyRoll : Bool
  /-- `fake.text(max_nb_chars=random.randint(50, 500))` -/
  content : String
  /-- `fake.sentence()` -/
  sentence : String
  /-- injected fault for the file write in `_create_file` -/
  createFault : Bool
  /-- injected fault for the append in `_modify_file` -/
  modifyFault : Bool
  /-- injected fault for `os.remove` in `_delete_file` -/
  deleteFault : Bool

/-- `random.choice(list(s))`: an arbitrary element of the nonempty list,
selected by the oracle index. -/
def listChoice (l : List String) (i : Nat) : String := l.getD (i % l.length) ""

/-- The mutation-selection policy of `generate_random_file_change`
(lines 166-172): when the tracked set is empty or the 30% roll fires, Create
with name `file_<len+1>.txt`; otherwise a uniformly chosen tracked path with a
uniform choice between Modify and Delete. -/
def pick_mutation (st : GenState) (o : MutOracle) : Mutation :=
  if st.existing_files.isEmpty || o.createRoll then
    .create ("file_" ++ toString (st.existing_files.length + 1) ++ ".txt")
  else
    let file_name := listChoice st.existing_files o.pickIdx
    if o.modifyRoll then .modify file_name else .delete file_name

/-- `GitCommitGenerator.generate_random_file_change`: selects a mutation via
the policy above and applies it; any exception is caught, logged, and turned
into a `None` return value. -/
def generate_random_file_change (st : GenState) (o : MutOracle) :
    GenState × Option String :=
  match pick_mutation st o with
  | .create file_name =>
    match create_file st file_name o.content o.createFault with
    | (st', .ok p) => (st', some p)
    | (st', .error _) => (st', none)
  | .modify file_name =>
    match modify_file st file_name o.sentence o.modifyFault with
    | (st', .ok p) => (st', some p)
    | (st', .error _) => (st', none)
  | .delete file_name =>
    match delete_file st file_name o.deleteFault with
    | (st', .ok p) => (st', some p)
    | (st', .error _) => (st', none)

/-- Python truthiness test `not file_path` for an optional string. -/
def pyFalsy : Option String → Bool
  | none => true
  | some s => s == ""

/-- The fixed author roster (`self.authors`). -/
def authors : List String :=
  ["Alice Developer", "Bob Contributor", "Charlie Maintainer"]

/-- The random draws and injected faults consumed by one call of
`generate_commit` (beyond the mutation's own oracle). -/
structure CommitOracle where
  mutOrc : MutOracle
  /-- index drawn by `random.choice(self.authors)` -/
  authorIdx : Nat
  /-- `fake.sentence()` used as the one-line commit message -/
  message : String
  /-- outcome of `random.random() > 0.7` -/
  longRoll : Bool
  /-- `fake.paragraph()` appended when `longRoll` fires -/
  paragraph : String
  /-- injected fault for `repo.git.add('--all')` -/
  addFault : Bool
  /-- injected fault for `repo.git.commit(...)` -/
  commitFault : Bool

/-- `GitCommitGenerator.generate_commit`: one mutation, stage all, commit with
author/message/date metadata.  The whole body is wrapped in `try/except`; any
failure is logged and yields `False`, success yields `True`. -/
def generate_commit (st : GenState) (o : CommitOracle) (date : Option Int) :
    GenState × Bool :=
  let (st1, file_path) := generate_random_file_change st o.mutOrc
  if pyFalsy file_path then (st1, false)
  else
    let author := authors.getD (o.authorIdx % authors.length) ""
    let commit_message :=
      if o.longRoll then o.message ++ "\n\n" ++ o.paragraph else o.message
    if o.addFault then (st1, false)
    else if o.commitFault then (st1, false)
    else
      ({ st1 with commits := st1.commits ++ [⟨commit_message, author, date⟩] },
        true)

/-- `GitCommitGenerator.generate_commit_date`: `start_date` minus
`timedelta(days=random.randint(0, days_back), seconds=random.randint(0, 86400))`. -/
def generate_commit_date (start_date : Int) (days_back : Nat) (daySeed secSeed : Nat) : Int :=
  start_date - ((randint 0 days_back daySeed : Int) * 86400 + (randint 0 86400 secSeed : Int))

/-- Python `sorted(l, reverse=True)` on instants: non-increasing order. -/
def sortDesc (l : List Int) : List Int := l.insertionSort (fun a b => b ≤ a)

/-- The timestamp series built by `generate_history` (lines 402-405):
`num_commits` draws of `generate_commit_date`, sorted descending. -/
def commit_date_series (anchor : Int) (days_back count : Nat)
    (draws : Nat → Nat × Nat) : List Int :=
  sortDesc ((List.range count).map fun i =>
    generate_commit_date anchor days_back (draws i).1 (draws i).2)

/-- The retry loop of one commit slot (lines 415-425):
`while not success and attempts < max_attempts` with `max_attempts = 3`;
attempt number `a` consumes oracle `orc a`.  Returns the final state, the
slot's success flag, and the number of `generate_commit` invocations made. -/
def commit_attempt_loop (date : Option Int) (orc : Nat → CommitOracle)
    (st : GenState) (attempts : Nat) : GenState × Bool × Nat :=
  if attempts < 3 then
    let r := generate_commit st (orc attempts) date
    if r.2 then (r.1, true, attempts + 1)
    else commit_attempt_loop date orc r.1 (attempts + 1)
  else (st, false, attempts)
termination_by 3 - attempts

/-- The slot-sequencing loop of `generate_history` (lines 412-431): for each
date, run the retry loop from `attempts = 0` and bump the success or failure
counter; a failed slot never aborts the batch. -/
def generate_history_loop (orc : Nat → Nat → CommitOracle) :
    GenState → List Int → Nat → Nat → Nat → GenState × Nat × Nat
  | st, [], _, succ, fail => (st, succ, fail)
  | st, date :: rest, slot, succ, fail =>
    let r := commit_attempt_loop (some date) (orc slot) st 0
    if r.2.1 then generate_history_loop orc r.1 rest (slot + 1) (succ + 1) fail
    else generate_history_loop orc r.1 rest (slot + 1) succ (fail + 1)

/-- `GitCommitGenerator.generate_history` from line 402 onward (repository
initialization already done): builds the timestamp series, then logs
`f"... range: {commit_dates[-1]} to {commit_dates[0]}"` — an f-string whose
indexing raises `IndexError` when the series is empty, caught at line 447 and
re-raised — and otherwise runs the slot loop, returning the final state and
the `(successful_commits, failed_commits)` counters. -/
def generate_history (st : GenState) (num_commits days_back : Nat) (anchor : Int)
    (draws : Nat → Nat × Nat) (orc : Nat → Nat → CommitOracle) :
    Except Err (GenState × Nat × Nat) :=
  let commit_dates := commit_date_series anchor days_back num_commits draws
  if commit_dates.isEmpty then .error .indexError
  else .ok (generate_history_loop orc st commit_dates 0 0 0)

/-- One directory visited by `os.walk`: its path string and the plain files
directly inside it. -/
structure WalkEntry where
  root : String
  files : List String
  deriving DecidableEq, Repr

/-- Whether `pat` matches at the head of `s` (character-wise). -/
def leadMatch : List Char → List Char → Bool
  | [], _ => true
  | _ :: _, [] => false
  | a :: ps, b :: ls => a == b && leadMatch ps ls

/-- Whether `pat` occurs contiguously anywhere in `s`. -/
def subMatch (pat : List Char) : List Char → Bool
  | [] => leadMatch pat []
  | c :: ls => leadMatch pat (c :: ls) || subMatch pat ls

/-- Python substring test `pat in s`. -/
def strContainsSub (pat s : String) : Bool := subMatch pat.data s.data

/-- `os.path.relpath(p, base)` for a path `p` lying under `base`: drop the
`base` together with the separator. -/
def relPath (p base : String) : String :=
  ⟨p.data.drop (base.data.length + 1)⟩

/-- The body of the `os.walk` loop in `scan_existing_files` (lines 96-102):
`if '.git' in root: continue`, else add
`os.path.relpath(os.path.join(root, file), repo_path)` for every file. -/
def scanStep (repo : String) (acc : List String) (e : WalkEntry) : List String :=
  if strContainsSub ".git" e.root then acc
  else e.files.foldl (fun a f => setAdd a (relPath (pathJoin e.root f) repo)) acc

/-- `GitCommitGenerator.scan_existing_files` as a function of the `os.walk`
listing: rebuild the tracked set from scratch, skipping every walk root whose
path string contains `'.git'` as a substring. -/
def scan_existing_files (repo : String) (walk : List WalkEntry) : List String :=
  walk.foldl (scanStep repo) []

/-- The state-level effect of `scan_existing_files`: `self.existing_files` is
replaced wholesale by the scan result; disk and commit log are untouched. -/
def do_scan (st : GenState) (walk : List WalkEntry) : GenState :=
  { st with existing_files := scan_existing_files st.repo_path walk }

/-! ## Helper lemmas -/

theorem listChoice_mem (l : List String) (i : Nat) (h : l ≠ []) :
    listChoice l i ∈ l := by
  have hlen : 0 < l.length := List.length_pos.mpr h
  have hmod : i % l.length < l.length := Nat.mod_lt _ hlen
  simp only [listChoice, List.getD_eq_getElem?_getD, List.getElem?_eq_getElem hmod,
    Option.getD_some]
  exact List.getElem_mem hmod

theorem setAdd_self_mem (s : List String) (x : String) : x ∈ setAdd s x := by
  unfold setAdd
  by_cases h : x ∈ s <;> simp [h]

theorem setAdd_nodup (s : List String) (x : String) (h : s.Nodup) :
    (setAdd s x).Nodup := by
  unfold setAdd
  by_cases hx : x ∈ s
  · simp [hx, h]
  · simp [hx, List.nodup_append, h, List.disjoint_singleton]

/-! ## Theorems about the claims -/

/-- C3: whenever the tracked set is empty, `pick_mutation`
(`generate_random_file_change`'s selection policy) never chooses Delete or
Modify: it chooses Create with name `file_<n+1>.txt` where `n` is the current
tracked-set size — concretely `file_1.txt`. -/
theorem pick_mutation_empty_creates (st : GenState) (o : MutOracle)
    (h : st.existing_files = []) :
    pick_mutation st o =
      Mutation.create ("file_" ++ toString (st.existing_files.length + 1) ++ ".txt") ∧
    pick_mutation st o = Mutation.create "file_1.txt" := by
  have h1 : pick_mutation st o =
      Mutation.create ("file_" ++ toString (st.existing_files.length + 1) ++ ".txt") := by
    simp [pick_mutation, h]
  refine ⟨h1, ?_⟩
  rw [h1, h]
  rfl

def stEmpty : GenState := ⟨"/repo", fun _ => none, [], []⟩

def oracle0 : MutOracle := ⟨true, 0, true, "text", "sent.", false, false, false⟩

theorem pick_mutation_empty_creates_witness :
    pick_mutation stEmpty oracle0 = Mutation.create "file_1.txt" :=
  (pick_mutation_empty_creates stEmpty oracle0 rfl).2

/-- C7: whenever `pick_mutation` (the selection policy of
`generate_random_file_change`) chooses a Delete mutation, the deleted path is
drawn from the current tracked set. -/
theorem delete_target_tracked (st : GenState) (o : MutOracle) (name : String)
    (h : pick_mutation st o = Mutation.delete name) :
    name ∈ st.existing_files := by
  unfold pick_mutation at h
  by_cases he : (st.existing_files.isEmpty || o.createRoll) = true
  · simp [he] at h
  · simp only [he, if_false, Bool.not_eq_true] at h
    have hne : st.existing_files ≠ [] := by
      rcases Bool.or_eq_false_iff.mp (Bool.not_eq_true _ ▸ he) with ⟨h1, _⟩
      exact fun hnil => by simp [hnil] at h1
    by_cases hm : o.modifyRoll = true
    · simp [hm] at h
    · simp only [Bool.not_eq_true] at hm
      simp only [hm, Bool.false_eq_true, if_false, Mutation.delete.injEq] at h
      exact h ▸ listChoice_mem st.existing_files o.pickIdx hne

def stOne : GenState :=
  ⟨"/repo", fun n => if n = "a.txt" then some "x" else none, ["a.txt"], []⟩

def oracleDel : MutOracle := ⟨false, 0, false, "text", "sent.", false, false, false⟩

theorem delete_target_tracked_witness : "a.txt" ∈ stOne.existing_files :=
  delete_target_tracked stOne oracleDel "a.txt" rfl

/-- C8: re-scan is idempotent: for a fixed `os.walk` listing, running
`scan_existing_files` twice in a row (with no intervening mutation) leaves the
generator in the same state as running it once, since the scan replaces the
tracked set wholesale as a pure function of the disk listing. -/
theorem do_scan_idempotent (st : GenState) (walk : List WalkEntry) :
    do_scan (do_scan st walk) walk = do_scan st walk := rfl


theorem scan_foldl_filter_dotgit (repo : String) :
    ∀ (walk : List WalkEntry) (acc : List String),
      walk.foldl (scanStep repo) acc =
        (walk.filter fun e => !(strContainsSub ".git" e.root)).foldl (scanStep repo) acc
  | [], acc => rfl
  | e :: rest, acc => by
    by_cases hg : strContainsSub ".git" e.root = true
    · have hstep : scanStep repo acc e = acc := by simp [scanStep, hg]
      simp only [List.foldl_cons, List.filter_cons, hg, Bool.not_true, hstep]
      exact scan_foldl_filter_dotgit repo rest acc
    · simp only [Bool.not_eq_true] at hg
      simp only [List.foldl_cons, List.filter_cons, hg, Bool.not_false, List.foldl_cons]
      exact scan_foldl_filter_dotgit repo rest (scanStep repo acc e)

/-- C9: the directory scan excludes every walk root whose path string contains
`'.git'` as a substring — such entries never affect the tracked set, so the
scan result equals the scan of the listing with those entries filtered out —
and concretely files inside directories named `my.github` or
`tools.git-extras` are never added. -/
theorem scan_excludes_dotgit_substring_roots (repo : String) (walk : List WalkEntry) :
    scan_existing_files repo walk =
      scan_existing_files repo
        (walk.filter fun e => !(strContainsSub ".git" e.root)) ∧
    scan_existing_files "/repo"
      [⟨"/repo/my.github", ["a.txt"]⟩, ⟨"/repo/tools.git-extras", ["b.txt"]⟩] = [] := by
  exact ⟨scan_foldl_filter_dotgit repo walk [], by decide⟩


def stMissing : GenState := ⟨"/repo", fun _ => none, ["a.txt"], []⟩

/-- Counterexample to C5 as stated: in a state where `"a.txt"` is tracked but
missing on disk, `_modify_file` does not fail with IOError — Python's append
mode (`'a'`) creates the file — it succeeds and the file afterwards exists
containing the appended sentence. -/
theorem modify_missing_file_succeeds :
    (modify_file stMissing "a.txt" "Hello." false).2 = Except.ok "/repo/a.txt" ∧
    (modify_file stMissing "a.txt" "Hello." false).1.disk "a.txt" = some "\nHello." := by
  constructor
  · rfl
  · simp [modify_file, stMissing, diskWrite]

/-- C5 (amended): `_modify_file` appends `"\n"` plus one generated sentence to
the named file; when the file is missing on disk it is created (append mode)
containing just the appended text, and the call succeeds.  IOError occurs only
on an actual write fault, which leaves the state unchanged. -/
theorem modify_file_appends (st : GenState) (name sentence : String) :
    (modify_file st name sentence false).2 = Except.ok (pathJoin st.repo_path name) ∧
    (modify_file st name sentence false).1.disk name =
      some (((st.disk name).getD "") ++ "\n" ++ sentence) ∧
    modify_file st name sentence true = (st, Except.error Err.ioError) := by
  refine ⟨rfl, ?_, rfl⟩
  simp [modify_file, diskWrite]

/-- C10: create and delete update the tracked set only after their disk
operation succeeds: a faulted write in `_create_file` and a faulted or
missing-file `os.remove` in `_delete_file` raise with the tracked set exactly
as before. -/
theorem create_delete_atomic (st : GenState) (name content : String) :
    (create_file st name content true).1.existing_files = st.existing_files ∧
    (create_file st name content true).2 = Except.error Err.ioError ∧
    (delete_file st name true).1.existing_files = st.existing_files ∧
    (delete_file st name true).2 = Except.error Err.ioError ∧
    (st.disk name = none →
      (delete_file st name false).1.existing_files = st.existing_files ∧
      (delete_file st name false).2 = Except.error Err.ioError) := by
  refine ⟨rfl, rfl, rfl, rfl, fun h => ?_⟩
  constructor <;> simp [delete_file, h]

theorem create_delete_atomic_witness :
    (delete_file stMissing "a.txt" false).1.existing_files = stMissing.existing_files ∧
    (delete_file stMissing "a.txt" false).2 = Except.error Err.ioError :=
  (create_delete_atomic stMissing "a.txt" "c").2.2.2.2 rfl

/-- C6: after a successful `_create_file name` the tracked set contains `name`
and the file exists on disk with the non-empty generated content; after a
subsequent successful `_delete_file name` the tracked set no longer contains
`name` and the file no longer exists on disk.  (`existing_files.Nodup` is the
representation invariant of Python's `set`; the content generator's output is
non-empty per the collaborator contract.) -/
theorem create_then_delete (st : GenState) (name content : String)
    (hnd : st.existing_files.Nodup) (hc : content ≠ "") :
    name ∈ (create_file st name content false).1.existing_files ∧
    (∃ c, (create_file st name content false).1.disk name = some c ∧ c ≠ "") ∧
    name ∉ (delete_file (create_file st name content false).1 name false).1.existing_files ∧
    (delete_file (create_file st name content false).1 name false).1.disk name = none := by
  have hmem : name ∈ setAdd st.existing_files name := setAdd_self_mem _ _
  have hnd' : (setAdd st.existing_files name).Nodup := setAdd_nodup _ _ hnd
  refine ⟨?_, ⟨content, ?_, hc⟩, ?_, ?_⟩
  · simpa [create_file] using hmem
  · simp [create_file, diskWrite]
  · simp only [create_file, if_neg Bool.false_ne_true, delete_file, diskWrite]
    simp only [↓reduceIte, hmem, setRemove]
    exact fun hin => (List.Nodup.mem_erase_iff hnd').mp hin |>.1 rfl
  · simp [create_file, delete_file, diskWrite, diskErase, hmem]

theorem create_then_delete_witness :
    "b.txt" ∈ (create_file stEmpty "b.txt" "hello" false).1.existing_files ∧
    (∃ c, (create_file stEmpty "b.txt" "hello" false).1.disk "b.txt" = some c ∧ c ≠ "") ∧
    "b.txt" ∉
      (delete_file (create_file stEmpty "b.txt" "hello" false).1 "b.txt" false).1.existing_files ∧
    (delete_file (create_file stEmpty "b.txt" "hello" false).1 "b.txt" false).1.disk "b.txt" =
      none :=
  create_then_delete stEmpty "b.txt" "hello" List.nodup_nil (by decide)


theorem generate_random_file_change_all_faults (st : GenState) (o : MutOracle)
    (hc : o.createFault = true) (hm : o.modifyFault = true) (hd : o.deleteFault = true) :
    generate_random_file_change st o = (st, none) := by
  unfold generate_random_file_change
  cases pick_mutation st o <;>
    simp [create_file, modify_file, delete_file, hc, hm, hd]

/-- C4: `generate_commit` returns `false` rather than raising whenever any
failure occurs during mutation selection (all mutation paths faulted), staging
(`git add`), or commit submission (`git commit`); its return type is `Bool`,
so no per-commit error propagates to the caller. -/
theorem generate_commit_absorbs_failures (st : GenState) (o : CommitOracle)
    (date : Option Int)
    (h : (o.mutOrc.createFault = true ∧ o.mutOrc.modifyFault = true ∧
            o.mutOrc.deleteFault = true) ∨
         o.addFault = true ∨ o.commitFault = true) :
    (generate_commit st o date).2 = false := by
  unfold generate_commit
  rcases h with ⟨hc, hm, hd⟩ | ha | hcm
  · rw [generate_random_file_change_all_faults st o.mutOrc hc hm hd]
    simp [pyFalsy]
  · rcases hg : generate_random_file_change st o.mutOrc with ⟨st1, fp⟩
    by_cases hp : pyFalsy fp = true <;> simp [hg, hp, ha]
  · rcases hg : generate_random_file_change st o.mutOrc with ⟨st1, fp⟩
    by_cases hp : pyFalsy fp = true
    · simp [hg, hp]
    · by_cases ha : o.addFault = true <;> simp [hg, hp, ha, hcm]

def oracleC : CommitOracle :=
  ⟨oracle0, 0, "A message.", false, "A paragraph.", false, false⟩

def oracleCommitFail : CommitOracle :=
  ⟨oracle0, 0, "A message.", false, "A paragraph.", false, true⟩

theorem generate_commit_absorbs_failures_witness :
    (generate_commit stEmpty oracleCommitFail none).2 = false :=
  generate_commit_absorbs_failures stEmpty oracleCommitFail none (Or.inr (Or.inr rfl))


theorem generate_commit_date_bounds (anchor : Int) (days_back ds ss : Nat) :
    generate_commit_date anchor days_back ds ss ≤ anchor ∧
    anchor - ((days_back : Int) * 86400 + 86400) ≤
      generate_commit_date anchor days_back ds ss := by
  unfold generate_commit_date randint
  simp only [Nat.sub_zero, Nat.zero_add]
  have h1 : ds % (days_back + 1) < days_back + 1 := Nat.mod_lt ds (Nat.succ_pos days_back)
  have h2 : ss % (86400 + 1) < 86400 + 1 := Nat.mod_lt ss (Nat.succ_pos 86400)
  set d := ds % (days_back + 1) with hd
  set s := ss % (86400 + 1) with hs
  constructor
  · have : (0 : Int) ≤ (d : Int) * 86400 + (s : Int) := by positivity
    omega
  · omega

instance : IsTotal Int (fun a b => b ≤ a) := ⟨fun a b => le_total b a⟩

instance : IsTrans Int (fun a b => b ≤ a) := ⟨fun _ _ _ h1 h2 => le_trans h2 h1⟩

/-- C2: the timestamp series used by the sequencer — `count` draws of
`generate_commit_date`, sorted descending — contains exactly `count` instants,
each at most the anchor and at least the anchor minus
(`days_back` days plus 1 day), and is sorted non-increasing. -/
theorem commit_date_series_spec (anchor : Int) (days_back count : Nat)
    (draws : Nat → Nat × Nat) :
    (commit_date_series anchor days_back count draws).length = count ∧
    (∀ t ∈ commit_date_series anchor days_back count draws,
        t ≤ anchor ∧ anchor - ((days_back : Int) * 86400 + 86400) ≤ t) ∧
    List.Sorted (fun a b : Int => b ≤ a)
      (commit_date_series anchor days_back count draws) := by
  refine ⟨?_, ?_, ?_⟩
  · simp [commit_date_series, sortDesc, List.length_insertionSort]
  · intro t ht
    simp only [commit_date_series, sortDesc, List.mem_insertionSort, List.mem_map,
      List.mem_range] at ht
    obtain ⟨i, _, rfl⟩ := ht
    exact generate_commit_date_bounds anchor days_back (draws i).1 (draws i).2
  · simp only [commit_date_series, sortDesc]
    exact List.sorted_insertionSort _ _

theorem commit_date_series_spec_witness :
    (0 : Int) ≤ 0 ∧ (0 : Int) - (((1 : Nat) : Int) * 86400 + 86400) ≤ 0 :=
  (commit_date_series_spec 0 1 2 (fun i => (i, i))).2.1 0 (by decide)


theorem commit_attempt_loop_spec (date : Option Int) (aorc : Nat → CommitOracle) :
    ∀ (n : Nat) (st : GenState) (a : Nat), a + n = 3 →
      (commit_attempt_loop date aorc st a).2.2 ≤ 3 ∧
      ((commit_attempt_loop date aorc st a).2.1 = false →
        (commit_attempt_loop date aorc st a).2.2 = 3)
  | 0, st, a, h => by
    have h3 : ¬ a < 3 := by omega
    unfold commit_attempt_loop
    simp only [h3, if_false]
    exact ⟨by omega, fun _ => by omega⟩
  | n + 1, st, a, h => by
    have h3 : a < 3 := by omega
    unfold commit_attempt_loop
    by_cases hr : (generate_commit st (aorc a) date).2 = true
    · simp only [h3, if_true, hr]
      exact ⟨by omega, fun hf => by simp at hf⟩
    · simp only [Bool.not_eq_true] at hr
      simp only [h3, if_true, hr, Bool.false_eq_true, if_false]
      exact commit_attempt_loop_spec date aorc n
        (generate_commit st (aorc a) date).1 (a + 1) (by omega)

theorem generate_history_loop_counts (orc : Nat → Nat → CommitOracle) :
    ∀ (dates : List Int) (st : GenState) (slot succ fail : Nat),
      (generate_history_loop orc st dates slot succ fail).2.1 +
        (generate_history_loop orc st dates slot succ fail).2.2 =
      succ + fail + dates.length
  | [], st, slot, succ, fail => by simp [generate_history_loop]
  | date :: rest, st, slot, succ, fail => by
    unfold generate_history_loop
    by_cases hs : (commit_attempt_loop (some date) (orc slot) st 0).2.1 = true
    · simp only [hs, if_true]
      have := generate_history_loop_counts orc rest
        (commit_attempt_loop (some date) (orc slot) st 0).1 (slot + 1) (succ + 1) fail
      simp only [this, List.length_cons]
      omega
    · simp only [Bool.not_eq_true] at hs
      simp only [hs, Bool.false_eq_true, if_false]
      have := generate_history_loop_counts orc rest
        (commit_attempt_loop (some date) (orc slot) st 0).1 (slot + 1) succ (fail + 1)
      simp only [this, List.length_cons]
      omega


/-- Counterexample to C1 as stated at `num_commits = 0`: the debug f-string at
line 407 indexes `commit_dates[-1]` on the empty series, so `generate_history`
raises `IndexError` (re-raised at line 449) and never reaches the
success/failure counting loop — no counts summing to `0` are produced. -/
theorem generate_history_zero_raises :
    generate_history stEmpty 0 10 0 (fun i => (i, i)) (fun _ _ => oracleC) =
      Except.error Err.indexError := rfl

/-- C1 (amended): for every `num_commits ≥ 1` and `days_back ≥ 0`,
`generate_history` attempts each of the `num_commits` commit slots at most 3
times via `generate_commit`, a slot whose 3 attempts all fail (exactly 3
invocations) is counted as failed and the batch proceeds to the next slot
without aborting, and at the end `successful_commits + failed_commits` equals
`num_commits`.  (At `num_commits = 0` the debug logging of the empty timestamp
series raises `IndexError` instead.) -/
theorem generate_history_retry_and_counts (st : GenState)
    (num_commits days_back : Nat) (anchor : Int) (draws : Nat → Nat × Nat)
    (orc : Nat → Nat → CommitOracle) (h : 1 ≤ num_commits) :
    (∃ st2 succ fail,
        generate_history st num_commits days_back anchor draws orc =
          Except.ok (st2, succ, fail) ∧ succ + fail = num_commits) ∧
    (∀ (date : Option Int) (aorc : Nat → CommitOracle) (st0 : GenState),
        (commit_attempt_loop date aorc st0 0).2.2 ≤ 3 ∧
        ((commit_attempt_loop date aorc st0 0).2.1 = false →
          (commit_attempt_loop date aorc st0 0).2.2 = 3)) := by
  constructor
  · have hlen : (commit_date_series anchor days_back num_commits draws).length =
        num_commits :=
      (commit_date_series_spec anchor days_back num_commits draws).1
    have hne : (commit_date_series anchor days_back num_commits draws).isEmpty =
        false := by
      cases hd : commit_date_series anchor days_back num_commits draws with
      | nil => rw [hd] at hlen; simp at hlen; omega
      | cons a as => rfl
    unfold generate_history
    simp only [hne, Bool.false_eq_true, if_false]
    refine ⟨_, _, _, rfl, ?_⟩
    have hcnt := generate_history_loop_counts orc
      (commit_date_series anchor days_back num_commits draws) st 0 0 0
    simp only [Nat.zero_add, hlen] at hcnt
    exact hcnt
  · intro date aorc st0
    exact commit_attempt_loop_spec date aorc 3 st0 0 rfl

theorem generate_history_retry_and_counts_witness :
    ∃ st2 succ fail,
      generate_history stEmpty 1 10 0 (fun i => (i, i)) (fun _ _ => oracleC) =
        Except.ok (st2, succ, fail) ∧ succ + fail = 1 :=
  (generate_history_retry_and_counts stEmpty 1 10 0 (fun i => (i, i))
    (fun _ _ => oracleC) (Nat.le_refl 1)).1

end GitFake
